import Mathlib

/-!
Verification of the gap-classification and color-normalization engine of
`pastastore/plotting.py` (`Plots._data_availability` and `Plots._timeseries`).

Conventions of the embedding:
* Timestamps are nanosecond integers (`Int`), matching the reference rendering
  where `np.diff(s.index).astype(float)` yields nanosecond gap durations and
  interval boundaries are seconds multiplied by `10 ** 9`.
* A time series is a list of `(timestamp, value)` pairs; a `none` value models
  a NaN / missing value, so `dropna` keeps exactly the `some` entries.
* Python exceptions are modelled by `Except RenderError`; the constructors
  mirror the exception actually raised (`IndexError` for `bounds[0]` on an
  empty array, `TypeError` for the pcolormesh dimension check, `ValueError`
  for explicit `raise ValueError`, `NameError` for referencing the unbound
  local `pc`).  The spec's typed faults (`configurationFault`,
  `validationFault`, `dataFault`) are present in the type so that theorems can
  state that the code does or does not produce them.
* `matplotlib.colors.LogNorm.__call__` masks non-positive values
  (`np.ma.masked_less_equal(value, 0)`) and raises `ValueError` when
  `vmin > vmax` or `vmin <= 0`; `matplotlib.colors.BoundaryNorm.__call__`
  computes the largest `i` with `boundaries[i] <= x`, stretches it over the
  color range when `ncolors != len(boundaries) - 1`, and overrides the result
  with `-1` below `vmin = boundaries[0]` and with `ncolors` at or above
  `vmax = boundaries[-1]`.  These library semantics are embedded below; the
  monotone logarithmic rescaling of unmasked values is kept abstract (the
  unmasked gap itself is carried in the `ColorVal.logPos` constructor) since
  no claim refers to the numeric position, only to masking versus faulting.
-/

namespace Pastastore

/-- Python exception / fault alphabet for the render pipeline.  The final
three constructors are the spec's typed faults; the code itself only ever
produces the first four. -/
inductive RenderError where
  | indexError
  | typeError
  | valueError
  | nameError
  | configurationFault
  | validationFault
  | dataFault
  deriving DecidableEq, Repr

/-- The default interval table of `_data_availability` (seconds):
`{'second': 1, 'minute': 60, 'hour': 3600, 'day': 86400, 'week': 604800,
'14 days': 1209600, 'month': 2678400, 'quarter': 10713600, 'year': 31622400}`,
in insertion order. -/
def defaultIntervals : List (String × Int) :=
  [("second", 1),
   ("minute", 60),
   ("hour", 60 * 60),
   ("day", 60 * 60 * 24),
   ("week", 60 * 60 * 24 * 7),
   ("14 days", 60 * 60 * 24 * 14),
   ("month", 60 * 60 * 24 * 31),
   ("quarter", 60 * 60 * 24 * 31 * 4),
   ("year", 60 * 60 * 24 * 366)]

/-- The interval table used by the render: the caller-supplied mapping when
`intervals is not None`, otherwise the default table with the ignored names
popped (`for i in ignore: if i in intervals: intervals.pop(i)`); popping
preserves the insertion order of the remaining entries. -/
def intervalTable : Option (List (String × Int)) → List String → List (String × Int)
  | none, ignore => defaultIntervals.filter (fun p => !(ignore.contains p.1))
  | some t, _ => t

/-- `bounds = np.array([intervals[i] for i in intervals]).astype(float) * 10**9`:
the table's durations in insertion order, converted to nanoseconds. -/
def boundsOf (table : List (String × Int)) : List Int :=
  table.map (fun p => p.2 * 10 ^ 9)

/-- `labels = intervals.keys()`: the table's names in insertion order. -/
def labelsOf (table : List (String × Int)) : List String :=
  table.map Prod.fst

/-- The loop `iret = 0; for i, b in enumerate(boundaries): iret[xx >= b] = i`
of `BoundaryNorm.__call__`, specialised to a scalar `g`: `start` is the index
of the first element of the remaining list, `acc` the current `iret`. -/
def rawIndexFrom (g : Int) : List Int → Nat → Nat → Nat
  | [], _, acc => acc
  | b :: rest, i, acc => rawIndexFrom g rest (i + 1) (if b ≤ g then i else acc)

/-- The raw bucket index of `BoundaryNorm.__call__` before interpolation and
the under/over overrides: the last `i` with `boundaries[i] <= g` (0 when no
boundary is below `g`). -/
def rawIndex (bounds : List Int) (g : Int) : Nat :=
  rawIndexFrom g bounds 0 0

/-- `scalefac = (ncolors - 1) / (N - 2); iret = (iret * scalefac).astype(int16)`:
the interpolation applied when `ncolors != N - 1`, on nonnegative integers
(truncation towards zero is floor here). -/
def interpIndex (n ncolors i : Nat) : Nat :=
  i * (ncolors - 1) / (n - 2)

/-- The in-range output of `BoundaryNorm.__call__` for raw bucket `i`:
interpolated over the color range unless `ncolors == N - 1`. -/
def discreteScale (n ncolors i : Nat) : Int :=
  if ncolors = n - 1 then (i : Int) else (interpIndex n ncolors i : Int)

/-- `matplotlib.colors.BoundaryNorm.__call__` on a scalar gap `g`:
raw bucket, interpolation, then the overrides `iret[xx < vmin] = -1` and
`iret[xx >= vmax] = max_col` with `vmin = boundaries[0]`,
`vmax = boundaries[-1]`, `max_col = ncolors` (no clipping). -/
def boundaryNorm (bounds : List Int) (ncolors : Nat) (g : Int) : Int :=
  if g < bounds.head! then -1
  else if bounds.getLast! ≤ g then (ncolors : Int)
  else discreteScale bounds.length ncolors (rawIndex bounds g)

/-- Color of one drawn cell: `bad` is a masked (non-positive under log) value
drawn with the colormap's masked color, `logPos g` the logarithmic color of
the unmasked positive gap `g`, `discrete idx` the discrete color level chosen
by `BoundaryNorm`. -/
inductive ColorVal where
  | bad
  | logPos (g : Int)
  | discrete (idx : Int)
  deriving DecidableEq, Repr

/-- The two normalizations `_data_availability` can construct:
`LogNorm(vmin=bounds[0], vmax=bounds[-1])` or
`BoundaryNorm(boundaries=bounds, ncolors=256)`. -/
inductive Norm where
  | log (vmin vmax : Int)
  | boundary (bounds : List Int) (ncolors : Nat)
  deriving DecidableEq, Repr

/-- Applying a normalization to one gap duration, as the underlying library
does at draw time.  `LogNorm.__call__` raises `ValueError` when `vmin > vmax`
or `vmin <= 0` and otherwise masks non-positive values; `BoundaryNorm`
returns a discrete level for every input. -/
def applyNorm : Norm → Int → Except RenderError ColorVal
  | .log vmin vmax, g =>
      if vmax < vmin then .error .valueError
      else if vmin ≤ 0 then .error .valueError
      else .ok (if g ≤ 0 then .bad else .logPos g)
  | .boundary bounds ncolors, g => .ok (.discrete (boundaryNorm bounds ncolors g))

/-- `if dropna: s = s.dropna()`: the retained observations. -/
def dropnaFn (s : List (Int × Option Int)) : List (Int × Option Int) :=
  s.filter (fun p => p.2.isSome)

/-- The series actually plotted for one row, after the optional NaN drop. -/
def retained (dropna : Bool) (s : List (Int × Option Int)) : List (Int × Option Int) :=
  if dropna then dropnaFn s else s

/-- The timestamps of a series (`s.index`). -/
def tsOf (s : List (Int × Option Int)) : List Int :=
  s.map Prod.fst

/-- `np.diff`: consecutive differences `[t1 - t0, t2 - t1, ...]`. -/
def listDiff (ts : List Int) : List Int :=
  List.zipWith (fun a b => b - a) ts ts.tail

/-- `ax.pcolormesh(X, [i, i+1], [C], norm=..., ...)` for one row: matplotlib
first checks `len(X) == C.shape[1] + 1` (raising `TypeError` on mismatch,
in particular when both `X` and `C` are empty) and then colors each of the
`C` cells through the normalization. -/
def pcolormesh (norm : Norm) (xs : List Int) (cvals : List Int) :
    Except RenderError (List ColorVal) :=
  if xs.length = cvals.length + 1 then cvals.mapM (applyNorm norm)
  else .error .typeError

/-- One iteration of `for i, s in enumerate(series)`: an empty input series is
skipped entirely (`if not s.empty`), returning `none` (no pcolormesh call,
blank row); otherwise the optional dropna is applied and the row's gaps are
drawn. -/
def renderRow (norm : Norm) (dropna : Bool) (s : List (Int × Option Int)) :
    Except RenderError (Option (List ColorVal)) :=
  if s.isEmpty then .ok none
  else
    let ts := tsOf (retained dropna s)
    (pcolormesh norm ts (listDiff ts)).map some

/-- The whole row loop; the first exception aborts the render. -/
def renderRows (norm : Norm) (dropna : Bool)
    (series : List (List (Int × Option Int))) :
    Except RenderError (List (Option (List ColorVal))) :=
  series.mapM (renderRow norm dropna)

/-- `f.colorbar(pc, ...)`: the local `pc` is assigned only inside the loop's
non-empty branch, so when no series was drawn the reference raises an unbound
local (`NameError`) and the render aborts. -/
def colorbarStep (rows : List (Option (List ColorVal))) : Except RenderError Unit :=
  if rows.all Option.isNone then .error .nameError else .ok ()

/-- `if normtype == 'log': norm = LogNorm(vmin=bounds[0], vmax=bounds[-1])
else: norm = BoundaryNorm(boundaries=bounds, ncolors=256)`. -/
def selectNorm (normtype : String) (bounds : List Int) : Norm :=
  if normtype = "log" then .log bounds.head! bounds.getLast! else .boundary bounds 256

/-- The normalization-construction stage: on an empty boundary array both
branches index `bounds[0]` / `boundaries[0]` and raise `IndexError`. -/
def normStage (bounds : List Int) (normtype : String) : Except RenderError Norm :=
  if bounds.isEmpty then .error .indexError else .ok (selectNorm normtype bounds)

/-- The observable output of `_data_availability`: the colored cells of each
row (`none` for a skipped empty series), and the colorbar's tick positions
and tick labels (`cb.set_ticks(bounds); cb.ax.set_yticklabels(labels)`). -/
structure RenderResult where
  rows : List (Option (List ColorVal))
  ticks : List Int
  tickLabels : List String
  deriving DecidableEq, Repr

/-- `Plots._data_availability`, from building the interval table up to the
colorbar: table (with ignore-popping only in the default branch), nanosecond
boundary array, normalization construction, the per-series row loop, and the
colorbar over the last pcolormesh handle. -/
def dataAvailability (series : List (List (Int × Option Int)))
    (intervals : Option (List (String × Int))) (ignore : List String)
    (normtype : String) (dropna : Bool) : Except RenderError RenderResult := do
  let table := intervalTable intervals ignore
  let bounds := boundsOf table
  let norm ← normStage bounds normtype
  let rows ← renderRows norm dropna series
  colorbarStep rows
  return { rows := rows, ticks := bounds, tickLabels := labelsOf table }

/-- `Plots._timeseries` control flow for the row-count ceiling: with more than
20 names and `split=True` it raises `ValueError` before `plt.subplots` is
called; otherwise it creates the axes (one per name when split, one shared
otherwise) and plots the rows in name order.  The result is the plotted name
order and the number of axes created. -/
def timeseriesPlot (names : List String) (split : Bool) :
    Except RenderError (List String × Nat) :=
  if 20 < names.length ∧ split = true then .error .valueError
  else .ok (names, if split then names.length else 1)

/-- `Except.isOk` for the render result. -/
def renderOk (r : Except RenderError RenderResult) : Bool :=
  match r with
  | .ok _ => true
  | .error _ => false

/-! ### Helper lemmas -/

lemma rawIndexFrom_of_forall_lt (g : Int) :
    ∀ (l : List Int) (start acc : Nat), (∀ b ∈ l, g < b) →
      rawIndexFrom g l start acc = acc := by
  intro l
  induction l with
  | nil => intro start acc _; rfl
  | cons b rest ih =>
      intro start acc h
      simp only [rawIndexFrom]
      rw [if_neg (not_le.mpr (h b (List.mem_cons_self _ _)))]
      exact ih _ _ (fun x hx => h x (List.mem_cons_of_mem _ hx))

lemma rawIndexFrom_eq (g : Int) :
    ∀ (l : List Int) (i start acc : Nat) (_ : i < l.length),
      (∀ j (hj : j < l.length), j ≤ i → l.get ⟨j, hj⟩ ≤ g) →
      (∀ j (hj : j < l.length), i < j → g < l.get ⟨j, hj⟩) →
      rawIndexFrom g l start acc = start + i := by
  intro l
  induction l with
  | nil => intro i start acc hi; exact absurd hi (Nat.not_lt_zero i)
  | cons b rest ih =>
      intro i start acc hi hle hgt
      have hb : b ≤ g := hle 0 (Nat.succ_pos _) (Nat.zero_le i)
      simp only [rawIndexFrom]
      rw [if_pos hb]
      cases i with
      | zero =>
          rw [rawIndexFrom_of_forall_lt]
          · omega
          · intro x hx
            obtain ⟨⟨j, hj⟩, rfl⟩ := List.mem_iff_get.mp hx
            have : g < (b :: rest).get ⟨j + 1, Nat.succ_lt_succ hj⟩ :=
              hgt (j + 1) (Nat.succ_lt_succ hj) (Nat.succ_pos j)
            simpa using this
      | succ k =>
          have hk : k < rest.length := Nat.lt_of_succ_lt_succ hi
          have h1 : ∀ j (hj : j < rest.length), j ≤ k → rest.get ⟨j, hj⟩ ≤ g := by
            intro j hj hjk
            have := hle (j + 1) (Nat.succ_lt_succ hj) (Nat.succ_le_succ hjk)
            simpa using this
          have h2 : ∀ j (hj : j < rest.length), k < j → g < rest.get ⟨j, hj⟩ := by
            intro j hj hkj
            have := hgt (j + 1) (Nat.succ_lt_succ hj) (Nat.succ_lt_succ hkj)
            simpa using this
          rw [ih k (start + 1) start hk h1 h2]
          omega

lemma sorted_get_le (l : List Int) (hs : List.Sorted (· < ·) l) (j i : Nat)
    (hj : j < l.length) (hi : i < l.length) (h : j ≤ i) :
    l.get ⟨j, hj⟩ ≤ l.get ⟨i, hi⟩ := by
  rcases Nat.eq_or_lt_of_le h with rfl | hlt
  · exact le_refl _
  · exact le_of_lt (hs.rel_get_of_lt hlt)

lemma head!_eq_get (l : List Int) (h : 0 < l.length) : l.head! = l.get ⟨0, h⟩ := by
  cases l with
  | nil => exact absurd h (by simp)
  | cons a t => rfl

lemma getLast!_eq_get (l : List Int) (h : 0 < l.length) :
    l.getLast! = l.get ⟨l.length - 1, by omega⟩ := by
  cases l with
  | nil => exact absurd h (by simp)
  | cons a t =>
      rw [List.getLast!_of_getLast? (List.getLast?_eq_getLast (a :: t) (by simp))]
      simp [List.getLast_eq_getElem, List.get_eq_getElem]

lemma rawIndex_bucket (bounds : List Int) (hs : List.Sorted (· < ·) bounds)
    (g : Int) (i : Nat) (hi : i + 1 < bounds.length)
    (h1 : bounds.get ⟨i, Nat.lt_of_succ_lt hi⟩ ≤ g)
    (h2 : g < bounds.get ⟨i + 1, hi⟩) :
    rawIndex bounds g = i := by
  have := rawIndexFrom_eq g bounds i 0 0 (Nat.lt_of_succ_lt hi)
    (fun j hj hji => le_trans (sorted_get_le bounds hs j i hj (Nat.lt_of_succ_lt hi) hji) h1)
    (fun j hj hij => lt_of_lt_of_le h2 (sorted_get_le bounds hs (i + 1) j hi hj hij))
  simpa [rawIndex] using this

lemma discreteScale_le_255 (n i : Nat) (hn : 3 ≤ n) (hi : i ≤ n - 2) :
    discreteScale n 256 i ≤ 255 := by
  unfold discreteScale
  by_cases h : 256 = n - 1
  · rw [if_pos h]
    exact_mod_cast by omega
  · rw [if_neg h]
    unfold interpIndex
    have h1 : i * (256 - 1) / (n - 2) ≤ (n - 2) * 255 / (n - 2) :=
      Nat.div_le_div_right (Nat.mul_le_mul_right _ hi)
    have h2 : (n - 2) * 255 / (n - 2) = 255 := by
      rw [Nat.mul_div_cancel_left _ (by omega : 0 < n - 2)]
    exact_mod_cast by omega

lemma listDiff_length (ts : List Int) : (listDiff ts).length = ts.length - 1 := by
  simp only [listDiff, List.length_zipWith, List.length_tail]
  omega

lemma listDiff_get? (ts : List Int) (k : Nat) (hk : k + 1 < ts.length) :
    (listDiff ts).get? k =
      some (ts.get ⟨k + 1, hk⟩ - ts.get ⟨k, Nat.lt_of_succ_lt hk⟩) := by
  induction ts generalizing k with
  | nil => simp at hk
  | cons a l ih =>
      cases l with
      | nil => simp at hk
      | cons b l2 =>
          cases k with
          | zero => rfl
          | succ k =>
              have hk' : k + 1 < (b :: l2).length := by
                simpa using Nat.lt_of_succ_lt_succ hk
              have step : listDiff (a :: b :: l2) = (b - a) :: listDiff (b :: l2) := rfl
              rw [step, List.get?_cons_succ, ih k hk']
              rfl

lemma mapM_ok_forall {α β : Type} (P : β → Prop) :
    ∀ (l : List α) (f : α → Except RenderError β),
      (∀ x ∈ l, ∃ y, f x = .ok y ∧ P y) →
      ∃ ys, l.mapM f = .ok ys ∧ ys.length = l.length ∧ ∀ y ∈ ys, P y := by
  intro l
  induction l with
  | nil => intro f _; exact ⟨[], rfl, rfl, by simp⟩
  | cons a rest ih =>
      intro f h
      obtain ⟨y, hy, hPy⟩ := h a (List.mem_cons_self _ _)
      obtain ⟨ys, hys, hlen, hall⟩ := ih f (fun x hx => h x (List.mem_cons_of_mem _ hx))
      refine ⟨y :: ys, ?_, by simp [hlen], ?_⟩
      · rw [List.mapM_cons, hy, hys]
        rfl
      · intro z hz
        rcases List.mem_cons.mp hz with rfl | hz
        · exact hPy
        · exact hall z hz

/-! ### Claim theorems -/

/-- C1: for every time series, after the optional missing-value drop
(`dropna`), the gap classification (`np.diff` on the retained timestamps)
produces exactly `max(n - 1, 0)` gap durations where `n` is the number of
retained observations (truncated `Nat` subtraction below), and the k-th gap
equals the difference between the (k+1)-th and k-th retained timestamps. -/
theorem gap_count_invariant (s : List (Int × Option Int)) (dropna : Bool) :
    (listDiff (tsOf (retained dropna s))).length = (retained dropna s).length - 1 ∧
    ∀ k (hk : k + 1 < (tsOf (retained dropna s)).length),
      (listDiff (tsOf (retained dropna s))).get? k =
        some ((tsOf (retained dropna s)).get ⟨k + 1, hk⟩ -
              (tsOf (retained dropna s)).get ⟨k, Nat.lt_of_succ_lt hk⟩) := by
  constructor
  · rw [listDiff_length]
    simp [tsOf]
  · intro k hk
    exact listDiff_get? _ k hk

/-- C1 witness: a three-point series with one missing value, `dropna = true`:
two retained observations, one gap, equal to `10 - 0`. -/
theorem gap_count_invariant_wit :
    (listDiff (tsOf (retained true [(0, some 1), (3, none), (10, some 2)]))).length
        = (retained true [(0, some 1), (3, none), (10, some 2)]).length - 1 ∧
    (listDiff (tsOf (retained true [(0, some 1), (3, none), (10, some 2)]))).get? 0
        = some 10 := by
  have h := gap_count_invariant [(0, some 1), (3, none), (10, some 2)] true
  refine ⟨h.1, ?_⟩
  rw [h.2 0 (by decide)]
  rfl

/-- C2: under discrete (boundary) normalization with strictly ascending
boundaries (at least 3, so the reference interpolation factor is defined),
every gap with `boundaries[i] <= g < boundaries[i+1]` is classified into raw
bucket `i` (lower edge inclusive, upper edge exclusive) and colored by the
in-range level of bucket `i` (at most 255, distinct from both indicators);
every `g < boundaries[0]` yields the under indicator `-1` and every
`g >= boundaries[-1]` the over indicator `256`, with no fault. -/
theorem discrete_bucket_correct (bounds : List Int)
    (hs : List.Sorted (· < ·) bounds) (hlen : 3 ≤ bounds.length) (g : Int) :
    (∀ i (hi : i + 1 < bounds.length),
        bounds.get ⟨i, Nat.lt_of_succ_lt hi⟩ ≤ g → g < bounds.get ⟨i + 1, hi⟩ →
          rawIndex bounds g = i ∧
          boundaryNorm bounds 256 g = discreteScale bounds.length 256 i ∧
          discreteScale bounds.length 256 i ≤ 255) ∧
    (g < bounds.head! → boundaryNorm bounds 256 g = -1) ∧
    (bounds.getLast! ≤ g → boundaryNorm bounds 256 g = 256) := by
  have hpos : 0 < bounds.length := by omega
  refine ⟨?_, ?_, ?_⟩
  · intro i hi h1 h2
    have hraw := rawIndex_bucket bounds hs g i hi h1 h2
    have hhead : bounds.head! ≤ g := by
      rw [head!_eq_get bounds hpos]
      exact le_trans
        (sorted_get_le bounds hs 0 i hpos (Nat.lt_of_succ_lt hi) (Nat.zero_le i)) h1
    have hlast : g < bounds.getLast! := by
      rw [getLast!_eq_get bounds hpos]
      exact lt_of_lt_of_le h2
        (sorted_get_le bounds hs (i + 1) (bounds.length - 1) hi (by omega) (by omega))
    refine ⟨hraw, ?_, discreteScale_le_255 bounds.length i hlen (by omega)⟩
    unfold boundaryNorm
    rw [if_neg (not_lt.mpr hhead), if_neg (not_le.mpr hlast), hraw]
  · intro h
    unfold boundaryNorm
    rw [if_pos h]
  · intro h
    have hh : bounds.head! ≤ bounds.getLast! := by
      rw [head!_eq_get bounds hpos, getLast!_eq_get bounds hpos]
      exact sorted_get_le bounds hs 0 (bounds.length - 1) hpos (by omega) (by omega)
    unfold boundaryNorm
    rw [if_neg (not_lt.mpr (le_trans hh h)), if_pos h]
    rfl

/-- C2 witness: boundaries `[1, 2, 4]` — the gap `2` lands in bucket 1
(level 255), `0` is under (`-1`), `7` is over (`256`). -/
theorem discrete_bucket_correct_wit :
    rawIndex [1, 2, 4] 2 = 1 ∧ boundaryNorm [1, 2, 4] 256 2 = 255 ∧
    boundaryNorm [1, 2, 4] 256 0 = -1 ∧ boundaryNorm [1, 2, 4] 256 7 = 256 := by
  have h2 := discrete_bucket_correct [1, 2, 4] (by decide) (by decide) 2
  have h0 := discrete_bucket_correct [1, 2, 4] (by decide) (by decide) 0
  have h7 := discrete_bucket_correct [1, 2, 4] (by decide) (by decide) 7
  have hin := h2.1 1 (by decide) (by decide) (by decide)
  refine ⟨hin.1, ?_, h0.2.1 (by decide), h7.2.2 (by decide)⟩
  rw [hin.2.1]
  decide

/-- C3 counterexample: for the caller-supplied mapping `{'b': 2, 'a': 1}` the
derived boundary array is `[2e9, 1e9]`, which is not strictly ascending — the
code derives boundaries in the mapping's insertion order and never sorts. -/
theorem boundary_monotone_cex :
    ¬ List.Sorted (· < ·) (boundsOf (intervalTable (some [("b", 2), ("a", 1)]) [])) := by
  decide

/-- C3 amended: for the default interval table after any sequence of name
removals the boundary array is strictly ascending and of the same length as
the label list; for a caller-supplied table the lengths agree and the
boundary array follows the supplied insertion order, so it is strictly
ascending only when the supplied durations are. -/
theorem boundary_monotone_amended :
    (∀ ignore : List String,
        List.Sorted (· < ·) (boundsOf (intervalTable none ignore)) ∧
        (boundsOf (intervalTable none ignore)).length =
          (labelsOf (intervalTable none ignore)).length) ∧
    (∀ (t : List (String × Int)) (ignore : List String),
        (boundsOf (intervalTable (some t) ignore)).length =
          (labelsOf (intervalTable (some t) ignore)).length ∧
        (List.Sorted (· < ·) (t.map Prod.snd) →
          List.Sorted (· < ·) (boundsOf (intervalTable (some t) ignore)))) := by
  constructor
  · intro ignore
    constructor
    · have hpw : List.Pairwise
          (fun a b : String × Int => a.2 * 10 ^ 9 < b.2 * 10 ^ 9) defaultIntervals := by
        decide
      have hf := hpw.filter (fun p => !(ignore.contains p.1))
      simpa [boundsOf, intervalTable, List.Sorted, List.pairwise_map] using hf
    · simp [boundsOf, labelsOf]
  · intro t ignore
    constructor
    · simp [boundsOf, labelsOf]
    · intro hsort
      have hpw : List.Pairwise (fun a b : String × Int => a.2 < b.2) t := by
        simpa [List.Sorted, List.pairwise_map] using hsort
      have hmul : List.Pairwise
          (fun a b : String × Int => a.2 * 10 ^ 9 < b.2 * 10 ^ 9) t :=
        hpw.imp (fun h => by nlinarith)
      simpa [boundsOf, intervalTable, List.Sorted, List.pairwise_map] using hmul

/-- C3 amended witness: the default table with `'second'` removed, and an
ascending caller-supplied table. -/
theorem boundary_monotone_amended_wit :
    List.Sorted (· < ·) (boundsOf (intervalTable none ["second"])) ∧
    List.Sorted (· < ·) (boundsOf (intervalTable (some [("a", 1), ("b", 2)]) [])) := by
  refine ⟨(boundary_monotone_amended.1 ["second"]).1, ?_⟩
  exact (boundary_monotone_amended.2 [("a", 1), ("b", 2)] []).2 (by decide)

/-- C10: when a caller-supplied intervals mapping is given, the ignore set has
no effect on any part of the output — the pop-loop doing name removal is
inside the `intervals is None` branch only. -/
theorem ignore_inert_when_intervals_supplied
    (series : List (List (Int × Option Int))) (t : List (String × Int))
    (ig1 ig2 : List String) (normtype : String) (dropna : Bool) :
    dataAvailability series (some t) ig1 normtype dropna =
      dataAvailability series (some t) ig2 normtype dropna := rfl

/-- C4 counterexample: with the unrecognized mode string `"unrecognized"` the
render completes successfully and the normalization stage silently selects the
discrete `BoundaryNorm` — no ConfigurationFault (indeed no fault at all) is
raised, because the code's branch is `if normtype == 'log': ... else:
BoundaryNorm(...)`. -/
theorem unrecognized_mode_cex :
    renderOk (dataAvailability [[(0, some 0), (86400 * 10 ^ 9, some 1)]] none
        ["second"] "unrecognized" true) = true ∧
    normStage (boundsOf (intervalTable none ["second"])) "unrecognized"
      = .ok (.boundary (boundsOf (intervalTable none ["second"])) 256) := ⟨rfl, rfl⟩

/-- C4 amended: every normalization mode string other than `'log'` selects the
discrete boundary normalization with 256 colors; no fault is raised for an
unrecognized mode string. -/
theorem unrecognized_mode_amended (normtype : String) (bounds : List Int)
    (h : normtype ≠ "log") :
    selectNorm normtype bounds = .boundary bounds 256 := by
  simp [selectNorm, h]

/-- C4 amended witness. -/
theorem unrecognized_mode_amended_wit :
    selectNorm "frobnicate" [1, 2, 3] = .boundary [1, 2, 3] 256 :=
  unrecognized_mode_amended "frobnicate" [1, 2, 3] (by decide)

/-- C5 counterexample: removing all nine names leaves an empty table and the
render aborts with the untyped `IndexError` from `bounds[0]` — not a typed
ConfigurationFault; removing eight of the nine leaves a single entry and a
degenerate `LogNorm` with `vmin == vmax` is constructed without any fault. -/
theorem few_intervals_cex :
    dataAvailability [[(0, some 0), (10 ^ 9, some 1)]] none
        ["second", "minute", "hour", "day", "week", "14 days", "month", "quarter", "year"]
        "log" true
      = .error .indexError ∧
    normStage (boundsOf (intervalTable none
        ["second", "minute", "hour", "day", "week", "14 days", "month", "quarter"])) "log"
      = .ok (.log (31622400 * 10 ^ 9) (31622400 * 10 ^ 9)) := ⟨rfl, rfl⟩

/-- C5 amended: with zero remaining entries the normalization stage fails with
the untyped `IndexError` raised by `bounds[0]`; with exactly one remaining
entry (a degenerate configuration) the log-mode normalizer is constructed
without fault, with `vmin = vmax` equal to that single boundary. -/
theorem few_intervals_amended (bounds : List Int) (normtype : String) :
    (bounds = [] → normStage bounds normtype = .error .indexError) ∧
    (∀ b : Int, bounds = [b] → normtype = "log" →
        normStage bounds normtype = .ok (.log b b)) := by
  constructor
  · intro h; subst h; rfl
  · intro b hb hn; subst hb; subst hn; rfl

/-- C5 amended witness. -/
theorem few_intervals_amended_wit :
    normStage [] "log" = .error .indexError ∧
    normStage [5] "log" = .ok (.log 5 5) :=
  ⟨(few_intervals_amended [] "log").1 rfl, (few_intervals_amended [5] "log").2 5 rfl rfl⟩

/-- C6 counterexample: a series whose two timestamps decrease produces the
non-positive gap `-5e9` under log mode, yet the render completes successfully:
`LogNorm` masks non-positive values (`np.ma.masked_less_equal(value, 0)`) and
the cell is drawn with the masked ('bad') color — no DataFault is raised. -/
theorem log_nonpositive_cex :
    dataAvailability [[(10 * 10 ^ 9, some 1), (5 * 10 ^ 9, some 2)]] none
        ["second", "minute", "14 days"] "log" true
      = .ok { rows := [some [.bad]],
              ticks := boundsOf (intervalTable none ["second", "minute", "14 days"]),
              tickLabels := ["hour", "day", "week", "month", "quarter", "year"] } := rfl

/-- C6 amended: under logarithmic normalization with a valid scale
(`0 < vmin <= vmax`), every non-positive gap duration is masked and drawn with
the colormap's masked color; no fault is raised and the render continues. -/
theorem log_nonpositive_amended (vmin vmax g : Int)
    (h1 : 0 < vmin) (h2 : vmin ≤ vmax) (h3 : g ≤ 0) :
    applyNorm (.log vmin vmax) g = .ok .bad := by
  simp [applyNorm, not_lt.mpr h2, not_le.mpr h1, h3]

/-- C6 amended witness. -/
theorem log_nonpositive_amended_wit :
    applyNorm (.log 1 2) (-3) = .ok .bad :=
  log_nonpositive_amended 1 2 (-3) (by decide) (by decide) (by decide)

/-- C7 counterexample: a non-empty series whose values are all missing has
zero retained observations after `dropna`, and the render aborts with the
untyped `TypeError` from pcolormesh's dimension check (`len(X) = 0` against
the required `C.shape[1] + 1 = 1`) instead of leaving the row blank. -/
theorem blank_row_cex :
    dataAvailability [[(0, none), (10 ^ 9, none)]] none ["second", "minute", "14 days"]
        "log" true = .error .typeError := rfl

/-- C7 amended: an originally-empty series is skipped (no segment, no fault),
and a series with exactly one retained observation draws zero segments
without fault; but a non-empty series whose retained count after `dropna` is
zero aborts the render with the untyped pcolormesh dimension `TypeError`. -/
theorem blank_row_amended (norm : Norm) (dropna : Bool) (s : List (Int × Option Int)) :
    (s = [] → renderRow norm dropna s = .ok none) ∧
    (s ≠ [] → (retained dropna s).length = 1 → renderRow norm dropna s = .ok (some [])) ∧
    (s ≠ [] → (retained dropna s).length = 0 →
      renderRow norm dropna s = .error .typeError) := by
  refine ⟨?_, ?_, ?_⟩
  · intro h; subst h; rfl
  · intro hne hlen
    have hE : s.isEmpty = false := by
      cases s with
      | nil => exact absurd rfl hne
      | cons a t => rfl
    obtain ⟨p, hp⟩ := List.length_eq_one.mp hlen
    simp only [renderRow, hE, Bool.false_eq_true, if_false, hp]
    rfl
  · intro hne hlen
    have hE : s.isEmpty = false := by
      cases s with
      | nil => exact absurd rfl hne
      | cons a t => rfl
    have hp : retained dropna s = [] := List.length_eq_zero.mp hlen
    simp only [renderRow, hE, Bool.false_eq_true, if_false, hp]
    rfl

/-- C7 amended witness: an empty series, a single-observation series, and an
all-missing two-point series. -/
theorem blank_row_amended_wit :
    renderRow (.boundary [1, 2] 256) true [] = .ok none ∧
    renderRow (.boundary [1, 2] 256) true [(0, some 1)] = .ok (some []) ∧
    renderRow (.boundary [1, 2] 256) true [(0, none)] = .error .typeError := by
  refine ⟨(blank_row_amended (.boundary [1, 2] 256) true []).1 rfl, ?_, ?_⟩
  · exact (blank_row_amended (.boundary [1, 2] 256) true [(0, some 1)]).2.1
      (by decide) (by decide)
  · exact (blank_row_amended (.boundary [1, 2] 256) true [(0, none)]).2.2
      (by decide) (by decide)

/-- C9 counterexample: with the default interval table and an empty ignore
set, the `'14 days'` entry (index 5) is retained, and a gap of exactly 20
days (`14d <= 20d < 31d`) is classified into bucket 5 — not into the "week"
bucket (index 4) as the claim states. -/
theorem twenty_day_bucket_cex :
    rawIndex (boundsOf (intervalTable none [])) (20 * 86400 * 10 ^ 9) ≠ 4 ∧
    rawIndex (boundsOf (intervalTable none [])) (20 * 86400 * 10 ^ 9) = 5 ∧
    (labelsOf (intervalTable none [])).get? 4 = some "week" := by decide

/-- C9 amended: with the default interval table, an empty ignore set, and
discrete normalization, a gap of exactly 20 days is classified into the
`'14 days'` bucket (raw index 5), and the drawn color level is that bucket's
discrete level. -/
theorem twenty_day_bucket_amended :
    rawIndex (boundsOf (intervalTable none [])) (20 * 86400 * 10 ^ 9) = 5 ∧
    (labelsOf (intervalTable none [])).get? 5 = some "14 days" ∧
    boundaryNorm (boundsOf (intervalTable none [])) 256 (20 * 86400 * 10 ^ 9)
      = discreteScale 9 256 5 := by decide

lemma exceptBind_ok {α β : Type} (a : α) (f : α → Except RenderError β) :
    Except.bind (.ok a) f = f a := rfl

lemma dataAvailability_eq (series : List (List (Int × Option Int)))
    (intervals : Option (List (String × Int))) (ignore : List String)
    (normtype : String) (dropna : Bool) :
    dataAvailability series intervals ignore normtype dropna =
      Except.bind (normStage (boundsOf (intervalTable intervals ignore)) normtype)
        (fun norm => Except.bind (renderRows norm dropna series)
          (fun rows => Except.bind (colorbarStep rows)
            (fun _ => Except.ok
              { rows := rows,
                ticks := boundsOf (intervalTable intervals ignore),
                tickLabels := labelsOf (intervalTable intervals ignore) }))) := rfl

lemma applyNorm_log_ok (vmin vmax g : Int) (h1 : 0 < vmin) (h2 : vmin ≤ vmax) :
    ∃ c, applyNorm (.log vmin vmax) g = .ok c := by
  refine ⟨if g ≤ 0 then .bad else .logPos g, ?_⟩
  simp [applyNorm, not_lt.mpr h2, not_le.mpr h1]

lemma renderRow_drawable (vmin vmax : Int) (h1 : 0 < vmin) (h2 : vmin ≤ vmax)
    (s : List (Int × Option Int)) (hne : s ≠ []) (hlen : 1 ≤ (retained true s).length) :
    ∃ cs, renderRow (.log vmin vmax) true s = .ok (some cs) := by
  have hE : s.isEmpty = false := by
    cases s with
    | nil => exact absurd rfl hne
    | cons a t => rfl
  obtain ⟨cs, hcs, -, -⟩ := mapM_ok_forall (fun _ => True)
    (listDiff (tsOf (retained true s))) (applyNorm (.log vmin vmax))
    (fun g _ => by
      obtain ⟨c, hc⟩ := applyNorm_log_ok vmin vmax g h1 h2
      exact ⟨c, hc, trivial⟩)
  refine ⟨cs, ?_⟩
  have hlen2 : (tsOf (retained true s)).length =
      (listDiff (tsOf (retained true s))).length + 1 := by
    rw [listDiff_length]
    simp only [tsOf, List.length_map]
    omega
  simp only [renderRow, hE, Bool.false_eq_true, if_false, pcolormesh, if_pos hlen2, hcs]
  rfl

/-- C8 counterexample: the single-canvas gap-heatmap does not accept every
number of rows — with zero series no pcolormesh call happens, the local `pc`
stays unbound, and the colorbar call aborts with an untyped `NameError`. -/
theorem split_ceiling_cex :
    dataAvailability [] none ["second", "minute", "14 days"] "log" true
      = .error .nameError := rfl

/-- C8 amended: requesting the multi-panel (split) variant with more than 20
names raises the validation `ValueError` before any figure or axes is
created, and without split there is no ceiling; the gap-heatmap has no
row-count ceiling either and completes for every non-zero number of drawable
rows (non-empty series with at least one retained observation) — though with
zero drawable rows its colorbar step fails on the unbound `pc`. -/
theorem split_ceiling_amended :
    (∀ (names : List String) (split : Bool), 20 < names.length → split = true →
        timeseriesPlot names split = .error .valueError) ∧
    (∀ names : List String, timeseriesPlot names false = .ok (names, 1)) ∧
    (∀ series : List (List (Int × Option Int)), series ≠ [] →
        (∀ s ∈ series, s ≠ [] ∧ 1 ≤ (retained true s).length) →
        renderOk (dataAvailability series none ["second", "minute", "14 days"]
          "log" true) = true) := by
  refine ⟨?_, ?_, ?_⟩
  · intro names split hn hs
    subst hs
    simp [timeseriesPlot, hn]
  · intro names
    simp [timeseriesPlot]
  · intro series hne hwf
    obtain ⟨rows, hrows, hlenr, hall⟩ := mapM_ok_forall
      (fun y : Option (List ColorVal) => y.isSome = true)
      series (renderRow (.log (3600 * 10 ^ 9) (31622400 * 10 ^ 9)) true)
      (fun s hs => by
        obtain ⟨cs, hcs⟩ := renderRow_drawable (3600 * 10 ^ 9) (31622400 * 10 ^ 9)
          (by norm_num) (by norm_num) s (hwf s hs).1 (hwf s hs).2
        exact ⟨some cs, hcs, rfl⟩)
    have hcb : colorbarStep rows = .ok () := by
      have hfalse : rows.all Option.isNone = false := by
        cases rows with
        | nil =>
            rw [List.length_nil] at hlenr
            exact absurd (List.length_eq_zero.mp hlenr.symm) hne
        | cons y ys =>
            have hy : y.isSome = true := hall y (List.mem_cons_self _ _)
            obtain ⟨v, rfl⟩ := Option.isSome_iff_exists.mp hy
            simp
      simp [colorbarStep, hfalse]
    have hnorm : normStage (boundsOf (intervalTable none ["second", "minute", "14 days"]))
        "log" = .ok (.log (3600 * 10 ^ 9) (31622400 * 10 ^ 9)) := rfl
    have hrr : renderRows (.log (3600 * 10 ^ 9) (31622400 * 10 ^ 9)) true series
        = .ok rows := hrows
    rw [dataAvailability_eq, hnorm, exceptBind_ok, hrr, exceptBind_ok, hcb, exceptBind_ok]
    rfl

/-- C8 amended witness: 21 names with split, 21 names without split, and a
21-row heatmap of two-point series. -/
theorem split_ceiling_amended_wit :
    timeseriesPlot (List.replicate 21 "x") true = .error .valueError ∧
    timeseriesPlot (List.replicate 21 "x") false = .ok (List.replicate 21 "x", 1) ∧
    renderOk (dataAvailability (List.replicate 21 [(0, some 0), (10 ^ 9, some 1)])
      none ["second", "minute", "14 days"] "log" true) = true := by
  refine ⟨split_ceiling_amended.1 (List.replicate 21 "x") true (by decide) rfl,
    split_ceiling_amended.2.1 (List.replicate 21 "x"), ?_⟩
  exact split_ceiling_amended.2.2 (List.replicate 21 [(0, some 0), (10 ^ 9, some 1)])
    (by decide) (by decide)

end Pastastore
